import Mathlib

/-!
Verification of the ingestion-engine repository: a shallow embedding of the
coordinator, the Reddit ingestion strategy and the GCS storage client,
together with proofs and refutations of the specified properties.

Python `str` is modelled as Lean `String` (a list of characters), Python
`datetime` as an explicit record of calendar fields, Python exceptions as
`Except String`, and JSON documents as an inductive `Json` value.
-/

/-! ### Python string helpers (shared by the strategy and the coordinator) -/

/-- Whitespace set of Python `str.strip()` restricted to ASCII
(space, tab, newline, carriage return, vertical tab, form feed). -/
def pyIsSpace (c : Char) : Bool :=
  c.toNat == 32 || c.toNat == 9 || c.toNat == 10 || c.toNat == 13 ||
  c.toNat == 11 || c.toNat == 12

/-- Characters stripped by `n.strip("/ ")` in the strategy: slash and space. -/
def isSlashOrSpace (c : Char) : Bool :=
  c.toNat == 47 || c.toNat == 32

/-- Strip characters satisfying `p` from both ends of a character list
(Python `str.strip`). -/
def stripChars (p : Char → Bool) (l : List Char) : List Char :=
  ((l.dropWhile p).reverse.dropWhile p).reverse

/-- Python `str.find` for a fixed pattern: index of the first occurrence of
`pat` in `l`, or `none` (Python returns `-1`). -/
def findSub (pat : List Char) : List Char → Option Nat
  | [] => if pat.isPrefixOf ([] : List Char) then some 0 else none
  | c :: t =>
    if pat.isPrefixOf (c :: t) then some 0
    else (findSub pat t).map (· + 1)

/-- Python `pat in s` substring containment. -/
def containsSub (pat l : List Char) : Bool :=
  (findSub pat l).isSome

/-- Python `str.split(sep)` for a single-character separator. -/
def splitChar (sep : Char) (l : List Char) : List (List Char) :=
  l.foldr
    (fun c acc =>
      if c == sep then [] :: acc
      else
        match acc with
        | [] => [[c]]
        | a :: as => (c :: a) :: as)
    [[]]

/-- Python `s.replace(a, b)` for single-character arguments. -/
def pyReplaceChar (s : String) (a b : Char) : String :=
  String.mk (s.data.map (fun c => if c == a then b else c))

/-- Python `s.strip()` on strings. -/
def pyStrip (s : String) : String :=
  String.mk (stripChars pyIsSpace s.data)

/-- Python `s.startswith(pre)`. -/
def pyStartsWith (s pre : String) : Bool :=
  pre.data.isPrefixOf s.data

/-! ### `_normalize_subreddit_name` (src/src/ingestion/strategies/reddit_strategy.py) -/

/-- Embedding of `_normalize_subreddit_name` from
`RedditIngestionStrategy.ingest_data`: empty input maps to `""`; a full URL
containing `reddit.com` is cut after the first `/r/`; single leading `/r/`
or `r/` markers are removed; slashes and spaces are stripped from both
ends; if interior slashes remain, the last non-empty path segment wins. -/
def normalize_subreddit_name (name : String) : String :=
  if name = "" then ""
  else
    let n := stripChars pyIsSpace name.data
    let n :=
      if containsSub "reddit.com".data n then
        match findSub "/r/".data n with
        | some idx => n.drop (idx + 3)
        | none => n
      else n
    let n :=
      if ("/r/".data).isPrefixOf n then n.drop 3
      else if ("r/".data).isPrefixOf n then n.drop 2
      else n
    let n := stripChars isSlashOrSpace n
    let n :=
      if n.contains '/' then
        let parts := (splitChar '/' n).filter (fun p => !p.isEmpty)
        match parts.getLast? with
        | some p => p
        | none => n
      else n
    String.mk n

/-! ### Python `datetime`: ISO-8601 formatting and parsing -/

/-- A Python `datetime` value (naive, microsecond precision). -/
structure Datetime where
  year : Nat
  month : Nat
  day : Nat
  hour : Nat
  minute : Nat
  second : Nat
  microsecond : Nat
deriving DecidableEq, Repr

/-- Field ranges enforced by the Python `datetime` constructor. -/
def validDatetime (d : Datetime) : Bool :=
  1 ≤ d.year && d.year ≤ 9999 && 1 ≤ d.month && d.month ≤ 12 &&
  1 ≤ d.day && d.day ≤ 31 && d.hour ≤ 23 && d.minute ≤ 59 &&
  d.second ≤ 59 && d.microsecond ≤ 999999

/-- The ASCII digit character for `n < 10`. -/
def isoDigit (n : Nat) : Char := Char.ofNat (48 + n)

/-- Two-digit zero-padded decimal rendering (`%02d`). -/
def pad2 (n : Nat) : List Char := [isoDigit (n / 10), isoDigit (n % 10)]

/-- Four-digit zero-padded decimal rendering (`%04d`). -/
def pad4 (n : Nat) : List Char := pad2 (n / 100) ++ pad2 (n % 100)

/-- Six-digit zero-padded decimal rendering (`%06d`). -/
def pad6 (n : Nat) : List Char :=
  pad2 (n / 10000) ++ pad2 (n / 100 % 100) ++ pad2 (n % 100)

/-- Embedding of `datetime.isoformat()`:
`YYYY-MM-DDTHH:MM:SS` with a `.ffffff` suffix exactly when the
microsecond field is non-zero. -/
def isoformat (d : Datetime) : String :=
  String.mk
    (pad4 d.year ++ '-' :: pad2 d.month ++ '-' :: pad2 d.day ++
     'T' :: pad2 d.hour ++ ':' :: pad2 d.minute ++ ':' :: pad2 d.second ++
     (if d.microsecond = 0 then [] else '.' :: pad6 d.microsecond))

/-- Parse one ASCII decimal digit. -/
def parseDig (c : Char) : Option Nat :=
  if 48 ≤ c.toNat ∧ c.toNat ≤ 57 then some (c.toNat - 48) else none

/-- Parse exactly two decimal digits, returning the value and the rest. -/
def parse2 : List Char → Option (Nat × List Char)
  | c1 :: c2 :: rest => do
    let a ← parseDig c1
    let b ← parseDig c2
    some (a * 10 + b, rest)
  | _ => none

/-- Parse exactly four decimal digits. -/
def parse4 (l : List Char) : Option (Nat × List Char) := do
  let (a, l) ← parse2 l
  let (b, l) ← parse2 l
  some (a * 100 + b, l)

/-- Parse exactly six decimal digits. -/
def parse6 (l : List Char) : Option (Nat × List Char) := do
  let (a, l) ← parse2 l
  let (b, l) ← parse2 l
  let (c, l) ← parse2 l
  some (a * 10000 + b * 100 + c, l)

/-- Require the next character to be `c`. -/
def expectChar (c : Char) : List Char → Option (List Char)
  | x :: rest => if x == c then some rest else none
  | [] => none

/-- Embedding of `datetime.fromisoformat` on the shapes `isoformat`
produces: `YYYY-MM-DDTHH:MM:SS` optionally followed by `.ffffff`;
anything else is rejected (Python raises `ValueError`). -/
def parseIso (l : List Char) : Option Datetime :=
  match parse4 l with
  | none => none
  | some (y, l) =>
  match expectChar '-' l with
  | none => none
  | some l =>
  match parse2 l with
  | none => none
  | some (mo, l) =>
  match expectChar '-' l with
  | none => none
  | some l =>
  match parse2 l with
  | none => none
  | some (da, l) =>
  match expectChar 'T' l with
  | none => none
  | some l =>
  match parse2 l with
  | none => none
  | some (h, l) =>
  match expectChar ':' l with
  | none => none
  | some l =>
  match parse2 l with
  | none => none
  | some (mi, l) =>
  match expectChar ':' l with
  | none => none
  | some l =>
  match parse2 l with
  | none => none
  | some (s, l) =>
  match l with
  | [] => some ⟨y, mo, da, h, mi, s, 0⟩
  | c :: l2 =>
    if c == '.' then
      match parse6 l2 with
      | some (us, []) => some ⟨y, mo, da, h, mi, s, us⟩
      | _ => none
    else none

/-- `datetime.fromisoformat` on strings. -/
def fromisoformat (s : String) : Option Datetime := parseIso s.data

/-! ### Data model (src/src/core/models.py is not part of the sources) -/

/-- Modelled from the spec: `Source` of the missing `src/src/core/models.py`
(§3): `id` (generated unique identifier, fresh per construction), `name`,
`url`, `type`. The generated id is passed in explicitly. -/
structure Source' where
  id : String
  name : String
  url : String
  type : String
deriving DecidableEq, Repr

/-- Modelled from the spec: `Post` of the missing `src/src/core/models.py`
(§3 and the artifact format of §6): `id`, `source_id`, `title`, `content`,
`author`, `url`, `created_at`, `ingested_at`, and a `metadata` mapping of
scalar (integer) values. Construction-time generated defaults (`id`,
`ingested_at`) are passed in explicitly by callers. -/
structure Post where
  id : String
  source_id : String
  title : String
  content : String
  author : String
  url : String
  created_at : Datetime
  ingested_at : Datetime
  metadata : List (String × Int)
deriving DecidableEq, Repr

/-- A Post whose timestamps lie in the ranges the Python `datetime`
constructor enforces. -/
def validPost (p : Post) : Bool :=
  validDatetime p.created_at && validDatetime p.ingested_at

/-! ### Raw Reddit records and `_normalize_submission` -/

/-- An untyped Python value, used for raw third-party attributes that may
be absent or malformed. -/
inductive PyVal where
  | pynone : PyVal
  | pyint : Int → PyVal
  | pystr : String → PyVal
deriving DecidableEq, Repr

/-- Python truthiness of a `PyVal` (`None`, `0` and `""` are falsy). -/
def pyTruthy : PyVal → Bool
  | .pynone => false
  | .pyint i => i != 0
  | .pystr s => s ≠ ""

/-- A raw Reddit submission as seen through `getattr` with defaults:
each attribute is either absent (`none`) or present. The `author`
attribute is an optional author object that may itself lack a `name`
attribute; `created_utc` keeps the full untyped Python value so that
malformed timestamps are representable. -/
structure RawSubmission where
  author : Option (Option String)
  title : Option String
  selftext : Option String
  url : Option String
  created_utc : Option PyVal
  score : Option Int
  num_comments : Option Int
deriving DecidableEq, Repr

/-- Days-since-epoch to civil date (proleptic Gregorian), the standard
era-based conversion used by C libraries; models the calendar part of
`datetime.fromtimestamp`. -/
def civilFromDays (z0 : Nat) : Nat × Nat × Nat :=
  let z := z0 + 719468
  let era := z / 146097
  let doe := z % 146097
  let yoe := (doe - doe / 1460 + doe / 36524 - doe / 146096) / 365
  let y := yoe + era * 400
  let doy := doe - (365 * yoe + yoe / 4 - yoe / 100)
  let mp := (5 * doy + 2) / 153
  let d := doy - (153 * mp + 2) / 5 + 1
  if mp < 10 then (y, mp + 3, d) else (y + 1, mp - 9, d)

/-- The calendar value `datetime.fromtimestamp` yields for an in-range
epoch-second count. -/
def fromtimestampOk (tt : Nat) : Datetime :=
  let days := tt / 86400
  let secs := tt % 86400
  let (y, m, d) := civilFromDays days
  ⟨y, m, d, secs / 3600, secs / 60 % 60, secs % 60, 0⟩

/-- Embedding of `datetime.fromtimestamp` on an untyped Python value:
defined for integer timestamps from the epoch up to year 9999 (modelled as
UTC); a non-numeric value raises `TypeError`, an out-of-range number
raises (`OverflowError`/`OSError`/`ValueError` in Python). -/
def fromtimestampPy (v : PyVal) : Except String Datetime :=
  match v with
  | .pyint t =>
    if 0 ≤ t ∧ t < 253402300800 then .ok (fromtimestampOk t.toNat)
    else .error "timestamp out of range"
  | _ => .error "TypeError: an integer is required"

/-- Embedding of `RedditIngestionStrategy._normalize_submission`:
defensive `getattr` access with defaults. `sourceId` is `self.source.id`,
`now` is the normalization-time timestamp (`datetime.utcnow()` and the
`ingested_at` construction default), `freshId` the generated Post id.
A present, truthy, non-numeric or out-of-range `created_utc` raises
(propagates as `.error`), exactly as `datetime.fromtimestamp` does. -/
def normalize_submission (sourceId freshId : String) (now : Datetime)
    (sub : RawSubmission) : Except String Post :=
  let author_name :=
    match sub.author with
    | some (some n) => n
    | some none => "Deleted"
    | none => "Deleted"
  let created := sub.created_utc.getD .pynone
  (if pyTruthy created then fromtimestampPy created else .ok now).bind
    fun created_at =>
      .ok
        { id := freshId
          source_id := sourceId
          title := sub.title.getD ""
          content := sub.selftext.getD ""
          author := author_name
          url := sub.url.getD ""
          created_at := created_at
          ingested_at := now
          metadata :=
            [("score", sub.score.getD 0), ("num_comments", sub.num_comments.getD 0)] }

/-- Well-formedness of a raw `created_utc` attribute: absent, falsy, or an
in-range numeric timestamp. Under this condition `_normalize_submission`
cannot raise. -/
def createdWellFormed (v : Option PyVal) : Bool :=
  match v.getD .pynone with
  | .pynone => true
  | .pystr s => s == ""
  | .pyint i => i == 0 || (0 ≤ i && i < 253402300800)

/-- Run `f` over a list left to right, stopping at the first raised
exception (a Python `for` loop whose body may raise). -/
def mapExcept (f : α → Except String β) : List α → Except String (List β)
  | [] => .ok []
  | x :: t => (f x).bind fun y => (mapExcept f t).bind fun ys => .ok (y :: ys)

/-! ### JSON documents and the GCS storage client (src/src/storage/gcs_client.py) -/

/-- A JSON value, as produced/consumed by `json.dumps`/`json.loads`. -/
inductive Json where
  | str : String → Json
  | int : Int → Json
  | arr : List Json → Json
  | obj : List (String × Json) → Json

/-- Python truthiness of a JSON value (used by `if item['created_at']:`). -/
def jsonTruthy : Json → Bool
  | .str s => s ≠ ""
  | .int i => i != 0
  | .arr xs => !xs.isEmpty
  | .obj kvs => !kvs.isEmpty

/-- The content of a stored blob: a text body that either parses as a JSON
value or is malformed. `json.dumps` output is always well-formed; the
`malformed` constructor represents pre-existing text `json.loads` rejects
(raising `JSONDecodeError`). The `json.dumps`/`json.loads` string round
trip is a property of the Python json library and is absorbed into this
representation. -/
inductive BlobContent where
  | json : Json → BlobContent
  | malformed : BlobContent

/-- A GCS bucket: named blobs, most recent upload first (uploads under an
existing name overwrite). -/
def GCSStore := List (String × BlobContent)

/-- The GCS client state: `bucket` is `None` until `authenticate`
succeeds. -/
structure GCSClient where
  bucket : Option GCSStore

/-- `dataclasses.asdict` followed by the custom `json_encoder` of
`save_posts_as_json`: each Post becomes a JSON object with exactly the
dataclass fields, datetimes rendered with `isoformat`. -/
def postToJson (p : Post) : Json :=
  .obj
    [("id", .str p.id), ("source_id", .str p.source_id), ("title", .str p.title),
     ("content", .str p.content), ("author", .str p.author), ("url", .str p.url),
     ("created_at", .str (isoformat p.created_at)),
     ("ingested_at", .str (isoformat p.ingested_at)),
     ("metadata", .obj (p.metadata.map (fun kv => (kv.1, Json.int kv.2))))]

/-- Embedding of `GCSClient.save_posts_as_json`: if the client is not
authenticated, log and change nothing; otherwise serialize the posts to a
JSON array and upload it under `filename` (overwriting). -/
def save_posts_as_json (c : GCSClient) (posts : List Post) (filename : String) : GCSClient :=
  match c.bucket with
  | none => c
  | some store =>
    { bucket := some ((filename, BlobContent.json (.arr (posts.map postToJson))) :: store) }

/-- The set of keyword arguments `Post(**item)` accepts; any other key
raises `TypeError`. -/
def postKeys : List String :=
  ["id", "source_id", "title", "content", "author", "url", "created_at",
   "ingested_at", "metadata"]

/-- Deserialize one JSON metadata entry back to a scalar. -/
def metaFromJson (kv : String × Json) : Except String (String × Int) :=
  match kv.2 with
  | .int i => .ok (kv.1, i)
  | _ => .error "metadata value is not a scalar integer"

/-- The per-item body of the `load_posts_from_json` loop: convert the two
timestamp strings back with `datetime.fromisoformat` (raising on values
that do not parse), then rebuild the Post from the item's keys
(`Post(**item)`). All nine dataclass fields are required with their
dataclass types; an unexpected key raises `TypeError`. -/
def parseItem (item : Json) : Except String Post :=
  match item with
  | .obj kvs => do
    let created ←
      match kvs.lookup "created_at" with
      | some v =>
        if jsonTruthy v then
          match v with
          | .str s =>
            match fromisoformat s with
            | some d => Except.ok d
            | none => Except.error "ValueError: invalid isoformat string"
          | _ => Except.error "TypeError: fromisoformat argument must be str"
        else Except.error "created_at value not convertible"
      | none => Except.error "missing created_at"
    let ingested ←
      match kvs.lookup "ingested_at" with
      | some v =>
        if jsonTruthy v then
          match v with
          | .str s =>
            match fromisoformat s with
            | some d => Except.ok d
            | none => Except.error "ValueError: invalid isoformat string"
          | _ => Except.error "TypeError: fromisoformat argument must be str"
        else Except.error "ingested_at value not convertible"
      | none => Except.error "missing ingested_at"
    let getStr := fun (k : String) =>
      match kvs.lookup k with
      | some (.str s) => Except.ok s
      | _ => Except.error "missing or non-string field"
    let i ← getStr "id"
    let sid ← getStr "source_id"
    let ti ← getStr "title"
    let co ← getStr "content"
    let au ← getStr "author"
    let u ← getStr "url"
    let md ←
      match kvs.lookup "metadata" with
      | some (.obj mkvs) => mapExcept metaFromJson mkvs
      | _ => Except.error "missing or non-object metadata"
    if kvs.all (fun kv => kv.1 ∈ postKeys) then
      Except.ok
        { id := i, source_id := sid, title := ti, content := co, author := au,
          url := u, created_at := created, ingested_at := ingested, metadata := md }
    else Except.error "TypeError: unexpected keyword argument"
  | _ => .error "TypeError: argument after ** must be a mapping"

/-- Embedding of `GCSClient.load_posts_from_json`: unauthenticated clients
log and return `[]`; a missing blob, malformed JSON, a non-array document,
or any item the loop body rejects raises inside the `try` block and the
handler returns `[]`. -/
def load_posts_from_json (c : GCSClient) (filename : String) : List Post :=
  match c.bucket with
  | none => []
  | some store =>
    let attempt : Except String (List Post) := do
      let content ←
        match store.lookup filename with
        | some b => Except.ok b
        | none => Except.error "NotFound: blob does not exist"
      let doc ←
        match content with
        | .json j => Except.ok j
        | .malformed => Except.error "JSONDecodeError"
      let items ←
        match doc with
        | .arr items => Except.ok items
        | _ => Except.error "iterating a non-list document"
      mapExcept parseItem items
    match attempt with
    | .ok posts => posts
    | .error _ => []

/-! ### Reddit strategy (src/src/ingestion/strategies/reddit_strategy.py) -/

/-- The Reddit credential settings read by the strategy
(src/src/config/settings.py). -/
structure RedditSettings where
  REDDIT_CLIENT_ID : String
  REDDIT_CLIENT_SECRET : String
  REDDIT_USER_AGENT : String
deriving DecidableEq, Repr

/-- The external world the strategy talks to: which PRAW transport modules
are importable, the outcome of the `user.me()` credential check for given
(client id, client secret, user agent), and the submissions returned by
`subreddit(name).hot(limit=25)` for a normalized subreddit name. Errors
model exceptions raised by the third-party client. -/
structure RedditEnv where
  asyncprawAvailable : Bool
  prawAvailable : Bool
  userMe : String → String → String → Except String Unit
  hot : String → Except String (List RawSubmission)

/-- The mutable state of a `RedditIngestionStrategy` instance: the
configured source, the loaded settings, the `reddit` handle (`None` until
authentication succeeds) and the transport flag. -/
structure RedditState where
  source : Source'
  settings : RedditSettings
  reddit : Option Unit
  using_asyncpraw : Bool
deriving DecidableEq, Repr

/-- `RedditIngestionStrategy.__init__`. -/
def redditInit (settings : RedditSettings) (source : Source') : RedditState :=
  { source := source, settings := settings, reddit := none, using_asyncpraw := false }

/-- The fallback user agent literal used when `REDDIT_USER_AGENT` is falsy. -/
def defaultUserAgent : String := "IngestionEngine/1.0 (by u/Playful_Concert3298)"

/-- Embedding of `RedditIngestionStrategy.authenticate`: an empty or
`your_`-prefixed **client id** short-circuits to the inert state without
contacting the service; otherwise the asyncpraw transport (when
importable), else praw, else neither, with any exception from the
credential check caught and converted to the inert state. The client
secret is only ever passed through to the service. -/
def reddit_authenticate (env : RedditEnv) (st : RedditState) : RedditState :=
  let client_id := pyStrip st.settings.REDDIT_CLIENT_ID
  let client_secret := pyStrip st.settings.REDDIT_CLIENT_SECRET
  if client_id = "" ∨ pyStartsWith client_id "your_" = true then
    { st with reddit := none }
  else
    let ua :=
      if st.settings.REDDIT_USER_AGENT ≠ "" then st.settings.REDDIT_USER_AGENT
      else defaultUserAgent
    if env.asyncprawAvailable then
      match env.userMe client_id client_secret ua with
      | .ok _ => { st with reddit := some (), using_asyncpraw := true }
      | .error _ => { st with reddit := none, using_asyncpraw := true }
    else if env.prawAvailable then
      match env.userMe client_id client_secret ua with
      | .ok _ => { st with reddit := some (), using_asyncpraw := false }
      | .error _ => { st with reddit := none }
    else { st with reddit := none }

/-- Embedding of `RedditIngestionStrategy.ingest_data`: no-op to `[]` when
inert; otherwise fetch the hot listing for the normalized subreddit name
and normalize each submission in origin order. Any exception inside the
`try` block — a fetch error or a raising `_normalize_submission` — is
caught and converted to `[]`. `now` is the normalization-time timestamp
and `fresh i` the generated id of the i-th Post. The call itself never
raises. -/
def reddit_ingest_data (env : RedditEnv) (now : Datetime) (fresh : Nat → String)
    (st : RedditState) : List Post :=
  match st.reddit with
  | none => []
  | some _ =>
    let subreddit_name := normalize_subreddit_name st.source.name
    let attempt : Except String (List Post) := do
      let subs ← env.hot subreddit_name
      mapExcept (fun p => normalize_submission st.source.id (fresh p.1) now p.2) subs.enum
    match attempt with
    | .ok posts => posts
    | .error _ => []

/-! ### Coordinator (src/src/core/coordinator.py) -/

/-- One call to the Sink's save operation: the filename key and the batch
passed to `save_posts_as_json`. -/
def SinkCall := String × List Post
deriving instance DecidableEq for SinkCall

/-- A registered ingestion strategy: construction from a Source, then the
two stateful calls. `authenticate` and `ingest_data` return `Except`
because a strategy variant may raise; exceptions propagate out of
`ingest_source` unguarded. -/
structure StrategyImpl where
  State : Type
  init : Source' → State
  authenticate : State → Except String State
  ingest_data : State → Except String (List Post)

/-- Embedding of `IngestionCoordinator.ingest_source`. The result is the
list of Sink save calls the coordinator issues (empty when it skips), or
the exception a strategy let escape. The `skip_persist` flag is carried in
the coordinator state exactly as in the code, which never consults it.
The key is built as `f"{source_type}_{source_name.replace('/', '_')}_{source.id}.json"`. -/
def ingest_source (skip_persist : Bool) (strategies : String → Option StrategyImpl)
    (source_type source_name source_url freshId : String) :
    Except String (List SinkCall) :=
  match strategies source_type with
  | none => .ok []
  | some strat =>
    let source : Source' :=
      { id := freshId, name := source_name, url := source_url, type := source_type }
    match strat.authenticate (strat.init source) with
    | .error e => .error e
    | .ok st =>
      match strat.ingest_data st with
      | .error e => .error e
      | .ok posts =>
        if posts.isEmpty then .ok []
        else
          .ok [(source_type ++ "_" ++ pyReplaceChar source_name '/' '_' ++ "_" ++
                source.id ++ ".json", posts)]

/-- Embedding of `IngestionCoordinator.run`: one `ingest_source` task per
configured subreddit (type `"reddit"`, url built from the name), awaited
with `asyncio.gather(*tasks)` **without** `return_exceptions`: the first
exception a task lets escape propagates out of `run` (modelled as the
`.error` outcome); only when every task completes normally does `run`
return, with the combined list of Sink save calls. `freshIds` supplies the
per-construction generated Source ids. -/
def coordinator_run (skip_persist : Bool) (strategies : String → Option StrategyImpl)
    (subreddits : List String) (freshIds : List String) :
    Except String (List SinkCall) :=
  let tasks := subreddits.zip freshIds
  if tasks.isEmpty then .ok []
  else
    match mapExcept (fun p =>
        ingest_source skip_persist strategies "reddit" p.1
          ("https://www.reddit.com/" ++ p.1 ++ "/") p.2) tasks with
    | .ok traces => .ok (traces.foldr (· ++ ·) [])
    | .error e => .error e

/-- The coordinator's type-to-strategy registry
(`self.strategies = {"reddit": RedditIngestionStrategy}`), parameterized
by the strategy's external collaborators. -/
def defaultStrategies (env : RedditEnv) (settings : RedditSettings) (now : Datetime)
    (fresh : Nat → String) : String → Option StrategyImpl :=
  fun t =>
    if t = "reddit" then
      some
        { State := RedditState
          init := redditInit settings
          authenticate := fun st => .ok (reddit_authenticate env st)
          ingest_data := fun st => .ok (reddit_ingest_data env now fresh st) }
    else none

/-- `Except.isOk`, for stating that a call raised. -/
def exceptIsOk : Except String α → Bool
  | .ok _ => true
  | .error _ => false

/-! ### Concrete fixtures (mirroring tests/mocks) -/

/-- A fixed normalization-time timestamp for concrete scenarios. -/
def sampleNow : Datetime := ⟨2025, 6, 1, 12, 0, 0, 0⟩

/-- The one fake Post of `tests/mocks/mock_reddit_strategy.py`. -/
def mockPost (sourceId : String) : Post :=
  { id := "post-1", source_id := sourceId, title := "Mock post",
    content := "This is a mocked reddit post", author := "mock_user",
    url := "https://reddit.mock/post/1", created_at := sampleNow,
    ingested_at := sampleNow, metadata := [] }

/-- A stub strategy that authenticates trivially and returns one fake Post,
as in `MockRedditStrategy` / the coordinator tests' `DummyStrategy`. -/
def mockStrategy : StrategyImpl :=
  { State := Source'
    init := fun s => s
    authenticate := fun s => .ok s
    ingest_data := fun s => .ok [mockPost s.id] }

/-- A registry holding only the stub strategy under `"reddit"`. -/
def mockRegistry : String → Option StrategyImpl :=
  fun t => if t == "reddit" then some mockStrategy else none

/-- A strategy whose `ingest_data` raises for the source named `"r/two"`
and returns one fake Post otherwise (the three-source fault-isolation
scenario). -/
def faultyStrategy : StrategyImpl :=
  { State := Source'
    init := fun s => s
    authenticate := fun s => .ok s
    ingest_data := fun s =>
      if s.name == "r/two" then .error "boom" else .ok [mockPost s.id] }

/-- Registry holding only `faultyStrategy` under `"reddit"`. -/
def faultyRegistry : String → Option StrategyImpl :=
  fun t => if t == "reddit" then some faultyStrategy else none

/-- A raw submission with every attribute absent. -/
def emptyRawSubmission : RawSubmission :=
  { author := none, title := none, selftext := none, url := none,
    created_utc := none, score := none, num_comments := none }

/-- An environment whose service accepts any credentials and returns one
raw submission for every subreddit. -/
def acceptingEnv : RedditEnv :=
  { asyncprawAvailable := true
    prawAvailable := true
    userMe := fun _ _ _ => .ok ()
    hot := fun _ => .ok [emptyRawSubmission] }

/-- Settings with a plausible client id but a placeholder client secret. -/
def placeholderSecretSettings : RedditSettings :=
  { REDDIT_CLIENT_ID := "SRo-AZLgsKclg-ZgjOhrlg"
    REDDIT_CLIENT_SECRET := "your_client_secret_here"
    REDDIT_USER_AGENT := "agent" }

/-- A concrete reddit source descriptor. -/
def sampleSource : Source' :=
  { id := "src-1", name := "r/test", url := "https://reddit.com/r/test", type := "reddit" }

/-- A bare subreddit name character: ASCII letter, digit or underscore. -/
def isBareChar (c : Char) : Bool :=
  (48 ≤ c.toNat && c.toNat ≤ 57) || (65 ≤ c.toNat && c.toNat ≤ 90) ||
  (97 ≤ c.toNat && c.toNat ≤ 122) || c.toNat == 95

/-- A bare subreddit name: non-empty, made only of letters, digits and
underscores. -/
def isBareName (s : String) : Bool :=
  !s.data.isEmpty && s.data.all isBareChar

/-! ## Theorems -/

/-! ### ISO-8601 round trip -/

theorem parseDig_isoDigit (k : Nat) (h : k < 10) : parseDig (isoDigit k) = some k := by
  interval_cases k <;> decide

theorem parse2_pad2 (n : Nat) (rest : List Char) (h : n < 100) :
    parse2 (pad2 n ++ rest) = some (n, rest) := by
  simp [pad2, parse2, parseDig_isoDigit (n / 10) (by omega), parseDig_isoDigit (n % 10) (by omega)]
  omega

theorem parse4_pad4 (n : Nat) (rest : List Char) (h : n < 10000) :
    parse4 (pad4 n ++ rest) = some (n, rest) := by
  simp [pad4, parse4, List.append_assoc, parse2_pad2 (n / 100) _ (by omega),
    parse2_pad2 (n % 100) _ (by omega)]
  omega

theorem parse6_pad6 (n : Nat) (rest : List Char) (h : n < 1000000) :
    parse6 (pad6 n ++ rest) = some (n, rest) := by
  simp [pad6, parse6, List.append_assoc, parse2_pad2 (n / 10000) _ (by omega),
    parse2_pad2 (n / 100 % 100) _ (by omega), parse2_pad2 (n % 100) _ (by omega)]
  omega

theorem expectChar_cons (c : Char) (rest : List Char) : expectChar c (c :: rest) = some rest := by
  simp [expectChar]

/-- `datetime.fromisoformat` inverts `datetime.isoformat` on every value
the Python `datetime` constructor admits. -/
theorem fromisoformat_isoformat (d : Datetime) (h : validDatetime d = true) :
    fromisoformat (isoformat d) = some d := by
  obtain ⟨y, mo, da, hh, mi, s, us⟩ := d
  simp only [validDatetime, Bool.and_eq_true, decide_eq_true_eq] at h
  simp only [fromisoformat, isoformat]
  by_cases hus : us = 0
  · rw [if_pos hus]
    subst hus
    show parseIso _ = _
    unfold parseIso
    simp only [List.append_assoc, List.cons_append, List.append_nil]
    rw [parse4_pad4 y _ (by omega)]
    dsimp only
    rw [expectChar_cons]
    dsimp only
    rw [parse2_pad2 mo _ (by omega)]
    dsimp only
    rw [expectChar_cons]
    dsimp only
    rw [parse2_pad2 da _ (by omega)]
    dsimp only
    rw [expectChar_cons]
    dsimp only
    rw [parse2_pad2 hh _ (by omega)]
    dsimp only
    rw [expectChar_cons]
    dsimp only
    rw [parse2_pad2 mi _ (by omega)]
    dsimp only
    rw [expectChar_cons]
    dsimp only
    rw [← List.append_nil (pad2 s), parse2_pad2 s [] (by omega)]
  · rw [if_neg hus]
    show parseIso _ = _
    unfold parseIso
    simp only [List.append_assoc, List.cons_append]
    rw [parse4_pad4 y _ (by omega)]
    dsimp only
    rw [expectChar_cons]
    dsimp only
    rw [parse2_pad2 mo _ (by omega)]
    dsimp only
    rw [expectChar_cons]
    dsimp only
    rw [parse2_pad2 da _ (by omega)]
    dsimp only
    rw [expectChar_cons]
    dsimp only
    rw [parse2_pad2 hh _ (by omega)]
    dsimp only
    rw [expectChar_cons]
    dsimp only
    rw [parse2_pad2 mi _ (by omega)]
    dsimp only
    rw [expectChar_cons]
    dsimp only
    rw [parse2_pad2 s _ (by omega)]
    dsimp only
    rw [if_pos (by decide)]
    rw [← List.append_nil (pad6 us), parse6_pad6 us [] (by omega)]

theorem isoformat_ne_empty (d : Datetime) : isoformat d ≠ "" := by
  simp [isoformat, pad4, pad2, String.ext_iff]

theorem metaFromJson_roundtrip (l : List (String × Int)) :
    mapExcept metaFromJson (l.map (fun kv => (kv.1, Json.int kv.2))) = .ok l := by
  induction l with
  | nil => rfl
  | cons hd tl ih => simp [mapExcept, metaFromJson, ih, Except.bind]

theorem parseItem_postToJson (p : Post) (h : validPost p = true) :
    parseItem (postToJson p) = .ok p := by
  simp only [validPost, Bool.and_eq_true] at h
  simp only [parseItem, postToJson, List.lookup]
  simp [jsonTruthy, isoformat_ne_empty, fromisoformat_isoformat _ h.1,
    fromisoformat_isoformat _ h.2, metaFromJson_roundtrip, postKeys]
  rfl

theorem mapExcept_parseItem_posts (P : List Post) (h : ∀ p ∈ P, validPost p = true) :
    mapExcept parseItem (P.map postToJson) = .ok P := by
  induction P with
  | nil => rfl
  | cons hd tl ih =>
    simp [mapExcept, parseItem_postToJson hd (h hd (by simp)), Except.bind,
      ih (fun p hp => h p (by simp [hp]))]

/-- C3: for every non-empty sequence of Posts and key, loading after saving
on an authenticated sink returns the same sequence field-for-field, in
order, with timestamps surviving the ISO-8601 string round trip. -/
theorem C3_save_load_roundtrip (store : GCSStore) (P : List Post) (k : String)
    (hne : P ≠ []) (hv : ∀ p ∈ P, validPost p = true) :
    load_posts_from_json (save_posts_as_json ⟨some store⟩ P k) k = P := by
  have step :
      load_posts_from_json (save_posts_as_json ⟨some store⟩ P k) k =
        match mapExcept parseItem (P.map postToJson) with
        | .ok posts => posts
        | .error _ => [] := by
    unfold save_posts_as_json load_posts_from_json
    dsimp only
    simp only [List.lookup, beq_self_eq_true]
    rfl
  rw [step, mapExcept_parseItem_posts P hv]

theorem C3_save_load_roundtrip_witness :
    ([mockPost "src-1"] ≠ [] ∧ (∀ p ∈ [mockPost "src-1"], validPost p = true)) ∧
      load_posts_from_json
        (save_posts_as_json ⟨some []⟩ [mockPost "src-1"] "reddit_r_test_src-1.json")
        "reddit_r_test_src-1.json" = [mockPost "src-1"] :=
  ⟨⟨by decide, by decide⟩,
    C3_save_load_roundtrip [] [mockPost "src-1"] "reddit_r_test_src-1.json"
      (by decide) (by decide)⟩

/-! ### Coordinator claims -/

/-- C1: the claim says a coordinator constructed with `skip_persist = true`
never calls the Sink's save. The code stores the flag but never consults
it: evaluated at the failing input (skip_persist true, one source, a
strategy yielding one post), `run` still issues exactly one save call. -/
theorem C1_skip_persist_not_honored :
    coordinator_run true mockRegistry ["r/test"] ["id0"] =
      .ok [("reddit_r_test_id0.json", [mockPost "id0"])] := by rfl

/-- C2: the claim says `run()` returns normally when one of three
strategies raises inside `ingest_data`. The code awaits
`asyncio.gather` without `return_exceptions` and `ingest_source` has no
handler, so the exception propagates out of `run`: evaluated at the
failing input, the run raises `"boom"` instead of completing. -/
theorem C2_run_propagates_strategy_fault :
    coordinator_run false faultyRegistry ["r/one", "r/two", "r/three"] ["a", "b", "c"] =
      .error "boom" := by rfl

/-- C8: for every configured entry whose type has no registered strategy,
`ingest_source` completes without raising and never calls the Sink's
save, whatever the name and url. -/
theorem C8_unregistered_type_skips (sp : Bool) (strategies : String → Option StrategyImpl)
    (ty nm url fid : String) (h : strategies ty = none) :
    ingest_source sp strategies ty nm url fid = .ok [] := by
  simp [ingest_source, h]

theorem C8_unregistered_type_skips_witness :
    mockRegistry "youtube" = none ∧
      ingest_source false mockRegistry "youtube" "chan" "u" "id1" = .ok [] :=
  ⟨rfl, C8_unregistered_type_skips false mockRegistry "youtube" "chan" "u" "id1" rfl⟩

theorem string_mid_cancel (pre suf a b : String)
    (h : pre ++ a ++ suf = pre ++ b ++ suf) : a = b := by
  have hd : (pre ++ a ++ suf).data = (pre ++ b ++ suf).data := by rw [h]
  simp only [String.data_append] at hd
  have h2 := List.append_cancel_right hd
  have h3 := List.append_cancel_left h2
  cases a; cases b; simp_all

/-- C9: when a resolved strategy produces a non-empty batch, the single
save call uses exactly the key
`"{type}_{sanitized_name}_{source.id}.json"` (sanitization replaces every
`/` in the name by `_`, e.g. `"r/test"` becomes `"r_test"`), and two such
keys for the same type and name coincide only when the generated source
ids do. -/
theorem C9_persistence_key_shape (sp : Bool) (strategies : String → Option StrategyImpl)
    (ty nm url fid : String) (strat : StrategyImpl) (st1 : strat.State)
    (posts : List Post)
    (hreg : strategies ty = some strat)
    (hauth : strat.authenticate (strat.init ⟨fid, nm, url, ty⟩) = .ok st1)
    (hing : strat.ingest_data st1 = .ok posts)
    (hne : posts ≠ []) :
    ingest_source sp strategies ty nm url fid =
      .ok [(ty ++ "_" ++ pyReplaceChar nm '/' '_' ++ "_" ++ fid ++ ".json", posts)] ∧
    (∀ fid' : String,
      ty ++ "_" ++ pyReplaceChar nm '/' '_' ++ "_" ++ fid ++ ".json" =
        ty ++ "_" ++ pyReplaceChar nm '/' '_' ++ "_" ++ fid' ++ ".json" ↔ fid = fid') ∧
    pyReplaceChar "r/test" '/' '_' = "r_test" := by
  refine ⟨?_, ?_, by decide⟩
  · simp [ingest_source, hreg, hauth, hing, hne]
  · intro fid'
    constructor
    · intro h
      have h2 : (ty ++ "_" ++ pyReplaceChar nm '/' '_' ++ "_") ++ fid ++ ".json" =
          (ty ++ "_" ++ pyReplaceChar nm '/' '_' ++ "_") ++ fid' ++ ".json" := by
        simpa [String.append_assoc] using h
      exact string_mid_cancel _ _ _ _ h2
    · intro h; rw [h]

theorem C9_persistence_key_shape_witness :
    ingest_source false mockRegistry "reddit" "r/test" "u" "id7" =
      .ok [("reddit" ++ "_" ++ pyReplaceChar "r/test" '/' '_' ++ "_" ++ "id7" ++ ".json",
            [mockPost "id7"])] :=
  (C9_persistence_key_shape false mockRegistry "reddit" "r/test" "u" "id7" mockStrategy
    ⟨"id7", "r/test", "u", "reddit"⟩ [mockPost "id7"] rfl rfl rfl (by decide)).1

/-! ### Loader totality -/

theorem mapExcept_error_of_mem (f : α → Except String β) (xs : List α) (x : α)
    (hmem : x ∈ xs) (hx : exceptIsOk (f x) = false) :
    exceptIsOk (mapExcept f xs) = false := by
  induction xs with
  | nil => cases hmem
  | cons hd tl ih =>
    rcases List.mem_cons.mp hmem with h | h
    · subst h
      cases hfx : f x <;> simp [mapExcept, hfx, exceptIsOk, Except.bind] at hx ⊢
    · cases hfh : f hd
      · simp [mapExcept, hfh, exceptIsOk, Except.bind]
      · cases hmt : mapExcept f tl
        · simp [mapExcept, hfh, hmt, exceptIsOk, Except.bind]
        · have := ih h
          simp [hmt, exceptIsOk] at this

theorem parseItem_created_unparseable (kvs : List (String × Json)) (s : String)
    (hlk : kvs.lookup "created_at" = some (.str s)) (hs : s ≠ "")
    (hp : fromisoformat s = none) :
    exceptIsOk (parseItem (.obj kvs)) = false := by
  simp only [parseItem, hlk, jsonTruthy]
  rw [if_pos (show (decide (s ≠ "")) = true by simp [hs])]
  simp only [hp]
  rfl

/-- C10: `load_posts_from_json` never raises at its public boundary: an
unauthenticated client, a missing blob, a malformed JSON body, and a
record with an unparseable timestamp string all return `[]`, so a caller
cannot distinguish a failed load from an empty or absent document. -/
theorem C10_load_total :
    (∀ k, load_posts_from_json ⟨none⟩ k = []) ∧
    (∀ (store : GCSStore) (k : String), store.lookup k = none →
      load_posts_from_json ⟨some store⟩ k = []) ∧
    (∀ (store : GCSStore) (k : String), store.lookup k = some .malformed →
      load_posts_from_json ⟨some store⟩ k = []) ∧
    (∀ (store : GCSStore) (k : String) (items : List Json)
      (kvs : List (String × Json)) (s : String),
      store.lookup k = some (.json (.arr items)) → Json.obj kvs ∈ items →
      kvs.lookup "created_at" = some (.str s) → s ≠ "" → fromisoformat s = none →
      load_posts_from_json ⟨some store⟩ k = []) := by
  refine ⟨fun k => rfl, ?_, ?_, ?_⟩
  · intro store k h
    unfold load_posts_from_json
    dsimp only
    rw [h]
    rfl
  · intro store k h
    unfold load_posts_from_json
    dsimp only
    rw [h]
    rfl
  · intro store k items kvs s h1 h2 h3 h4 h5
    have herr := mapExcept_error_of_mem parseItem items (Json.obj kvs) h2
      (parseItem_created_unparseable kvs s h3 h4 h5)
    have step : load_posts_from_json ⟨some store⟩ k =
        match mapExcept parseItem items with
        | .ok posts => posts
        | .error _ => [] := by
      unfold load_posts_from_json
      dsimp only
      rw [h1]
      rfl
    rw [step]
    cases hm : mapExcept parseItem items with
    | ok l => rw [hm] at herr; simp [exceptIsOk] at herr
    | error e => rfl

theorem C10_load_total_witness :
    load_posts_from_json ⟨none⟩ "k.json" = [] ∧
    load_posts_from_json ⟨some []⟩ "k.json" = [] ∧
    load_posts_from_json ⟨some [("k.json", BlobContent.malformed)]⟩ "k.json" = [] ∧
    load_posts_from_json
      ⟨some [("k.json",
        BlobContent.json (Json.arr [Json.obj [("created_at", Json.str "not-a-date")]]))]⟩
      "k.json" = [] :=
  ⟨C10_load_total.1 "k.json",
   C10_load_total.2.1 [] "k.json" rfl,
   C10_load_total.2.2.1 [("k.json", BlobContent.malformed)] "k.json" rfl,
   C10_load_total.2.2.2 _ "k.json" [Json.obj [("created_at", Json.str "not-a-date")]]
     [("created_at", Json.str "not-a-date")] "not-a-date" rfl (by simp) rfl
     (by decide) rfl⟩

/-! ### Defensive normalization of raw submissions -/

/-- C6 (counterexample): the claim says normalization never raises even on
malformed fields, but a present, truthy, non-numeric `created_utc` reaches
`datetime.fromtimestamp`, which raises `TypeError`: a record whose
`created_utc` is the string `"abc"` makes `_normalize_submission` raise. -/
theorem C6_normalize_raises_on_malformed_timestamp :
    exceptIsOk (normalize_submission "src-1" "post-1" sampleNow
      { author := none, title := none, selftext := none, url := none,
        created_utc := some (.pystr "abc"), score := none, num_comments := none })
      = false := rfl

/-- C6 (amended): for every raw record whose `created_utc` is absent,
falsy, or an in-range numeric timestamp — in particular with any subset of
attributes absent — `_normalize_submission` does not raise; an absent
author yields `"Deleted"`, an absent creation timestamp yields
`created_at` equal to the normalization-time timestamp, and absent
`score`/`num_comments` default to zero. -/
theorem C6_normalize_defensive_amended (sourceId freshId : String) (now : Datetime)
    (sub : RawSubmission) (h : createdWellFormed sub.created_utc = true) :
    ∃ p, normalize_submission sourceId freshId now sub = .ok p ∧
      (sub.author = none → p.author = "Deleted") ∧
      (sub.created_utc = none → p.created_at = now) ∧
      (sub.score = none → p.metadata.lookup "score" = some 0) ∧
      (sub.num_comments = none → p.metadata.lookup "num_comments" = some 0) := by
  cases htr : pyTruthy (sub.created_utc.getD .pynone) with
  | false =>
    have heq : normalize_submission sourceId freshId now sub = .ok
        { id := freshId, source_id := sourceId, title := sub.title.getD "",
          content := sub.selftext.getD "",
          author := match sub.author with
            | some (some n) => n
            | some none => "Deleted"
            | none => "Deleted",
          url := sub.url.getD "", created_at := now, ingested_at := now,
          metadata := [("score", sub.score.getD 0),
                       ("num_comments", sub.num_comments.getD 0)] } := by
      simp only [normalize_submission]
      rw [htr]
      rfl
    refine ⟨_, heq, ?_, ?_, ?_, ?_⟩
    · intro ha; simp [ha]
    · intro _; rfl
    · intro hs; simp [hs, List.lookup]
    · intro hn; simp [hn, List.lookup]
  | true =>
    rcases hcv : sub.created_utc with _ | v
    · rw [hcv] at htr; simp [pyTruthy] at htr
    · rcases v with _ | i | s
      · rw [hcv] at htr; simp [pyTruthy] at htr
      · rw [hcv] at htr h
        have hne0 : i ≠ 0 := by simpa [pyTruthy] using htr
        have hrange : 0 ≤ i ∧ i < 253402300800 := by
          rcases (by simpa [createdWellFormed] using h :
              i = 0 ∨ (0 ≤ i ∧ i < 253402300800)) with h0 | hr
          · exact absurd h0 hne0
          · exact hr
        have hd : fromtimestampPy (.pyint i) = .ok (fromtimestampOk i.toNat) := by
          simp only [fromtimestampPy]
          rw [if_pos hrange]
        have heq : normalize_submission sourceId freshId now sub = .ok
            { id := freshId, source_id := sourceId, title := sub.title.getD "",
              content := sub.selftext.getD "",
              author := match sub.author with
                | some (some n) => n
                | some none => "Deleted"
                | none => "Deleted",
              url := sub.url.getD "",
              created_at := fromtimestampOk i.toNat, ingested_at := now,
              metadata := [("score", sub.score.getD 0),
                           ("num_comments", sub.num_comments.getD 0)] } := by
          simp only [normalize_submission]
          rw [hcv]
          dsimp only [Option.getD]
          rw [if_pos (show pyTruthy (.pyint i) = true from htr), hd]
          rfl
        refine ⟨_, heq, ?_, ?_, ?_, ?_⟩
        · intro ha; simp [ha]
        · intro hnone; exact Option.noConfusion hnone
        · intro hs; simp [hs, List.lookup]
        · intro hn; simp [hn, List.lookup]
      · rw [hcv] at htr h
        have h1 : s = "" := by simpa [createdWellFormed] using h
        have h2 : s ≠ "" := by simpa [pyTruthy] using htr
        exact absurd h1 h2

theorem C6_normalize_defensive_amended_witness :
    ∃ p, normalize_submission "src-1" "post-1" sampleNow emptyRawSubmission = .ok p ∧
      (emptyRawSubmission.author = none → p.author = "Deleted") ∧
      (emptyRawSubmission.created_utc = none → p.created_at = sampleNow) ∧
      (emptyRawSubmission.score = none → p.metadata.lookup "score" = some 0) ∧
      (emptyRawSubmission.num_comments = none →
        p.metadata.lookup "num_comments" = some 0) :=
  C6_normalize_defensive_amended "src-1" "post-1" sampleNow emptyRawSubmission rfl

/-! ### Soft credential handling in the Reddit strategy -/

theorem reddit_ingest_inert (env : RedditEnv) (now : Datetime) (fresh : Nat → String)
    (st : RedditState) (h : st.reddit = none) :
    reddit_ingest_data env now fresh st = [] := by
  simp [reddit_ingest_data, h]

/-- C7 (counterexample): the claim says a placeholder client **secret**
also short-circuits to the inert state; the code screens only the client
id, so with a plausible id, a placeholder secret and a service that
accepts the call, the strategy ends authenticated and `ingest_data`
returns a non-empty batch. -/
theorem C7_placeholder_secret_not_screened :
    (reddit_authenticate acceptingEnv
        (redditInit placeholderSecretSettings sampleSource)).reddit = some () ∧
    reddit_ingest_data acceptingEnv sampleNow (fun _ => "post-1")
      (reddit_authenticate acceptingEnv
        (redditInit placeholderSecretSettings sampleSource)) ≠ [] := by
  constructor
  · rfl
  · decide

/-- C7 (amended): an empty or `your_`-prefixed client id short-circuits
`authenticate` to the inert state with no service call, and a rejected
service check (the path a bad client secret takes) likewise ends inert;
in both cases nothing raises and `ingest_data` returns `[]`. -/
theorem C7_soft_credentials_amended :
    (∀ (env : RedditEnv) (settings : RedditSettings) (src : Source'),
      (pyStrip settings.REDDIT_CLIENT_ID = "" ∨
        pyStartsWith (pyStrip settings.REDDIT_CLIENT_ID) "your_" = true) →
      (reddit_authenticate env (redditInit settings src)).reddit = none ∧
      ∀ (now : Datetime) (fresh : Nat → String),
        reddit_ingest_data env now fresh
          (reddit_authenticate env (redditInit settings src)) = []) ∧
    (∀ (env : RedditEnv) (settings : RedditSettings) (src : Source'),
      (∀ cid csec ua, exceptIsOk (env.userMe cid csec ua) = false) →
      (reddit_authenticate env (redditInit settings src)).reddit = none ∧
      ∀ (now : Datetime) (fresh : Nat → String),
        reddit_ingest_data env now fresh
          (reddit_authenticate env (redditInit settings src)) = []) := by
  constructor
  · intro env settings src hcid
    have hauth : (reddit_authenticate env (redditInit settings src)).reddit = none := by
      unfold reddit_authenticate
      rcases hcid with h | h <;> simp [redditInit, h]
    exact ⟨hauth, fun now fresh => reddit_ingest_inert env now fresh _ hauth⟩
  · intro env settings src hsvc
    have hauth : (reddit_authenticate env (redditInit settings src)).reddit = none := by
      unfold reddit_authenticate
      by_cases hc : (pyStrip (redditInit settings src).settings.REDDIT_CLIENT_ID = "" ∨
          pyStartsWith (pyStrip (redditInit settings src).settings.REDDIT_CLIENT_ID)
            "your_" = true)
      · rw [if_pos hc]
      · rw [if_neg hc]
        cases ha : env.asyncprawAvailable
        · cases hp : env.prawAvailable
          · simp [ha, hp]
          · rcases hm : env.userMe (pyStrip (redditInit settings src).settings.REDDIT_CLIENT_ID)
                (pyStrip (redditInit settings src).settings.REDDIT_CLIENT_SECRET)
                (if (redditInit settings src).settings.REDDIT_USER_AGENT = ""
                 then defaultUserAgent
                 else (redditInit settings src).settings.REDDIT_USER_AGENT) with e | u
            · simp [ha, hp, hm]
            · have := hsvc (pyStrip (redditInit settings src).settings.REDDIT_CLIENT_ID)
                (pyStrip (redditInit settings src).settings.REDDIT_CLIENT_SECRET)
                (if (redditInit settings src).settings.REDDIT_USER_AGENT = ""
                 then defaultUserAgent
                 else (redditInit settings src).settings.REDDIT_USER_AGENT)
              rw [hm] at this
              simp [exceptIsOk] at this
        · rcases hm : env.userMe (pyStrip (redditInit settings src).settings.REDDIT_CLIENT_ID)
              (pyStrip (redditInit settings src).settings.REDDIT_CLIENT_SECRET)
              (if (redditInit settings src).settings.REDDIT_USER_AGENT = ""
               then defaultUserAgent
               else (redditInit settings src).settings.REDDIT_USER_AGENT) with e | u
          · simp [ha, hm]
          · have := hsvc (pyStrip (redditInit settings src).settings.REDDIT_CLIENT_ID)
              (pyStrip (redditInit settings src).settings.REDDIT_CLIENT_SECRET)
              (if (redditInit settings src).settings.REDDIT_USER_AGENT = ""
               then defaultUserAgent
               else (redditInit settings src).settings.REDDIT_USER_AGENT)
            rw [hm] at this
            simp [exceptIsOk] at this
    exact ⟨hauth, fun now fresh => reddit_ingest_inert env now fresh _ hauth⟩

theorem C7_soft_credentials_amended_witness :
    (reddit_authenticate acceptingEnv
        (redditInit ⟨"your_id", "sec", "agent"⟩ sampleSource)).reddit = none ∧
    reddit_ingest_data acceptingEnv sampleNow (fun _ => "p")
      (reddit_authenticate acceptingEnv
        (redditInit ⟨"your_id", "sec", "agent"⟩ sampleSource)) = [] :=
  ⟨(C7_soft_credentials_amended.1 acceptingEnv ⟨"your_id", "sec", "agent"⟩ sampleSource
      (Or.inr (by decide))).1,
   (C7_soft_credentials_amended.1 acceptingEnv ⟨"your_id", "sec", "agent"⟩ sampleSource
      (Or.inr (by decide))).2 sampleNow (fun _ => "p")⟩

/-! ### Subreddit name normalization -/

theorem bare_not_space (c : Char) (h : isBareChar c = true) : pyIsSpace c = false := by
  simp only [isBareChar, Bool.or_eq_true, Bool.and_eq_true, beq_iff_eq,
    decide_eq_true_eq] at h
  simp only [pyIsSpace, Bool.or_eq_false_iff, beq_eq_false_iff_ne, ne_eq]
  omega

theorem bare_not_slashspace (c : Char) (h : isBareChar c = true) : isSlashOrSpace c = false := by
  simp only [isBareChar, Bool.or_eq_true, Bool.and_eq_true, beq_iff_eq,
    decide_eq_true_eq] at h
  simp only [isSlashOrSpace, Bool.or_eq_false_iff, beq_eq_false_iff_ne, ne_eq]
  omega

theorem bare_ne_slash (c : Char) (h : isBareChar c = true) : c ≠ '/' := by
  intro he
  subst he
  simp [isBareChar] at h

theorem bare_ne_dot (c : Char) (h : isBareChar c = true) : c ≠ '.' := by
  intro he
  subst he
  simp [isBareChar] at h

theorem dropWhile_head_false (p : Char → Bool) (l : List Char)
    (h : ∀ c, l.head? = some c → p c = false) : l.dropWhile p = l := by
  cases l with
  | nil => rfl
  | cons a t => simp [List.dropWhile, h a rfl]

theorem stripChars_eq_self (p : Char → Bool) (l : List Char)
    (hh : ∀ c, l.head? = some c → p c = false)
    (hl : ∀ c, l.getLast? = some c → p c = false) : stripChars p l = l := by
  unfold stripChars
  rw [dropWhile_head_false p l hh]
  rw [dropWhile_head_false p l.reverse (fun c hc => hl c (by
    rwa [List.head?_reverse] at hc))]
  exact List.reverse_reverse l

theorem isPrefixOf_mem (pat l : List Char) (h : pat.isPrefixOf l = true) :
    ∀ c ∈ pat, c ∈ l := by
  induction pat generalizing l with
  | nil => intro c hc; cases hc
  | cons p ps ih =>
    cases l with
    | nil => simp [List.isPrefixOf] at h
    | cons q t =>
      simp only [List.isPrefixOf, Bool.and_eq_true, beq_iff_eq] at h
      intro c hc
      rcases List.mem_cons.mp hc with h1 | h1
      · subst h1; rw [h.1]; exact List.mem_cons_self _ _
      · exact List.mem_cons_of_mem _ (ih t h.2 c h1)

theorem findSub_none_of_not_mem (pat : List Char) (c0 : Char) (hc0 : c0 ∈ pat) :
    ∀ (l : List Char), c0 ∉ l → findSub pat l = none := by
  intro l
  induction l with
  | nil =>
    intro _
    cases hp : pat with
    | nil => subst hp; cases hc0
    | cons p ps => simp [findSub, hp, List.isPrefixOf]
  | cons a t ih =>
    intro hl
    have hnp : pat.isPrefixOf (a :: t) = false := by
      cases hq : pat.isPrefixOf (a :: t) with
      | false => rfl
      | true => exact absurd (isPrefixOf_mem pat (a :: t) hq c0 hc0) hl
    simp only [findSub, hnp]
    rw [ih (fun hm => hl (List.mem_cons_of_mem _ hm))]
    rfl

theorem contains_false_of_ne (l : List Char) (a : Char) (h : ∀ c ∈ l, c ≠ a) :
    l.contains a = false := by
  induction l with
  | nil => rfl
  | cons b t ih =>
    simp only [List.contains_cons, Bool.or_eq_false_iff]
    constructor
    · exact beq_eq_false_iff_ne.mpr (fun he => h b (List.mem_cons_self _ _) he.symm)
    · exact ih (fun c hc => h c (List.mem_cons_of_mem _ hc))

theorem stringMk_data (s : String) : String.mk s.data = s := rfl

theorem char_toNat_injective {a b : Char} (h : a.toNat = b.toNat) : a = b :=
  Char.ofNat_toNat a ▸ Char.ofNat_toNat b ▸ congrArg Char.ofNat h

theorem slashspace_false (c : Char) (h1 : c ≠ '/') (h2 : pyIsSpace c = false) :
    isSlashOrSpace c = false := by
  have h47 : c.toNat ≠ 47 := fun hq => h1 (char_toNat_injective (by rw [hq]; rfl))
  simp only [pyIsSpace, Bool.or_eq_false_iff, beq_eq_false_iff_ne, ne_eq] at h2
  simp only [isSlashOrSpace, Bool.or_eq_false_iff, beq_eq_false_iff_ne, ne_eq]
  omega

theorem head?_mem {α : Type _} {l : List α} {c : α} (h : l.head? = some c) : c ∈ l := by
  cases l with
  | nil => cases h
  | cons a t =>
    simp only [List.head?_cons, Option.some.injEq] at h
    subst h
    exact List.mem_cons_self _ _

theorem getLast?_mem {α : Type _} {l : List α} {c : α} (h : l.getLast? = some c) : c ∈ l := by
  have h2 : c ∈ l.reverse := head?_mem (by rwa [List.head?_reverse])
  exact List.mem_reverse.mp h2

theorem normalize_fixes (n : String)
    (hslash : ∀ c ∈ n.data, c ≠ '/')
    (hh : ∀ c, n.data.head? = some c → pyIsSpace c = false)
    (hl : ∀ c, n.data.getLast? = some c → pyIsSpace c = false) :
    normalize_subreddit_name n = n := by
  by_cases hn : n = ""
  · subst hn; rfl
  · have h1 : stripChars pyIsSpace n.data = n.data := stripChars_eq_self _ _ hh hl
    have hfind : findSub "/r/".data n.data = none :=
      findSub_none_of_not_mem _ '/' (by decide) _ (fun hm => hslash '/' hm rfl)
    have hpre1 : ("/r/".data).isPrefixOf n.data = false := by
      cases hq : ("/r/".data).isPrefixOf n.data with
      | false => rfl
      | true =>
        exact absurd rfl (hslash '/' (isPrefixOf_mem _ _ hq '/' (by decide)))
    have hpre2 : ("r/".data).isPrefixOf n.data = false := by
      cases hq : ("r/".data).isPrefixOf n.data with
      | false => rfl
      | true =>
        exact absurd rfl (hslash '/' (isPrefixOf_mem _ _ hq '/' (by decide)))
    have h2 : stripChars isSlashOrSpace n.data = n.data :=
      stripChars_eq_self _ _
        (fun c hc => slashspace_false c (hslash c (head?_mem hc)) (hh c hc))
        (fun c hc => slashspace_false c (hslash c (getLast?_mem hc)) (hl c hc))
    have hcontains : n.data.contains '/' = false := contains_false_of_ne _ _ hslash
    unfold normalize_subreddit_name
    rw [if_neg hn]
    simp only [h1, hfind, hpre1, hpre2, h2, hcontains, ite_self, Bool.false_eq_true,
      if_false, stringMk_data]

theorem containsSub_false (pat l : List Char) (h : findSub pat l = none) :
    containsSub pat l = false := by
  simp [containsSub, h]

theorem bareName_parts (X : String) (h : isBareName X = true) :
    X.data ≠ [] ∧ ∀ c ∈ X.data, isBareChar c = true := by
  simp only [isBareName, Bool.and_eq_true, Bool.not_eq_true', List.all_eq_true] at h
  refine ⟨?_, h.2⟩
  intro hnil
  rw [hnil] at h
  simp at h

theorem normalize_bare (X : String) (h : isBareName X = true) :
    normalize_subreddit_name X = X := by
  obtain ⟨hne, hall⟩ := bareName_parts X h
  refine normalize_fixes X (fun c hc => bare_ne_slash c (hall c hc)) ?_ ?_
  · exact fun c hc => bare_not_space c (hall c (head?_mem hc))
  · exact fun c hc => bare_not_space c (hall c (getLast?_mem hc))

theorem normalize_slash_r (X : String) (h : isBareName X = true) :
    normalize_subreddit_name ("/r/" ++ X) = X := by
  obtain ⟨hne, hall⟩ := bareName_parts X h
  obtain ⟨x, xs, hx⟩ := List.exists_cons_of_ne_nil hne
  have hd : ("/r/" ++ X).data = '/' :: 'r' :: '/' :: (x :: xs) := by
    rw [String.data_append, hx]; rfl
  have hnz : ("/r/" ++ X) ≠ "" := by
    intro he
    have : ("/r/" ++ X).data = [] := by rw [he]
    rw [hd] at this
    cases this
  have hmem : ∀ c ∈ '/' :: 'r' :: '/' :: (x :: xs), c ∈ X.data ∨ c = '/' ∨ c = 'r' := by
    intro c hc
    rcases List.mem_cons.mp hc with h1 | hc
    · exact Or.inr (Or.inl h1)
    rcases List.mem_cons.mp hc with h1 | hc
    · exact Or.inr (Or.inr h1)
    rcases List.mem_cons.mp hc with h1 | hc
    · exact Or.inr (Or.inl h1)
    · rw [hx]; exact Or.inl hc
  have h1 : stripChars pyIsSpace ('/' :: 'r' :: '/' :: (x :: xs)) =
      '/' :: 'r' :: '/' :: (x :: xs) := by
    refine stripChars_eq_self _ _ (fun c hc => ?_) (fun c hc => ?_)
    · simp only [List.head?_cons, Option.some.injEq] at hc
      rw [← hc]
      decide
    · simp only [List.getLast?_cons_cons] at hc
      exact bare_not_space c (hall c (by rw [hx]; exact getLast?_mem hc))
  have hdot : ('.' : Char) ∉ '/' :: 'r' :: '/' :: (x :: xs) := by
    intro hm
    rcases hmem '.' hm with hX | hc
    · exact bare_ne_dot '.' (hall '.' hX) rfl
    · rcases hc with hc | hc <;> cases hc
  have hrc : containsSub "reddit.com".data ('/' :: 'r' :: '/' :: (x :: xs)) = false :=
    containsSub_false _ _ (findSub_none_of_not_mem _ '.' (by decide) _ hdot)
  have hpre1 : ("/r/".data).isPrefixOf ('/' :: 'r' :: '/' :: (x :: xs)) = true := by
    simp [List.isPrefixOf]
  have h2 : stripChars isSlashOrSpace (x :: xs) = x :: xs := by
    refine stripChars_eq_self _ _ (fun c hc => ?_) (fun c hc => ?_)
    · have hcm : c ∈ X.data := by rw [hx]; exact head?_mem hc
      exact bare_not_slashspace c (hall c hcm)
    · have hcm : c ∈ X.data := by rw [hx]; exact getLast?_mem hc
      exact bare_not_slashspace c (hall c hcm)
  have hcontains : (x :: xs).contains '/' = false := by
    refine contains_false_of_ne _ _ (fun c hc => ?_)
    have hcm : c ∈ X.data := by rw [hx]; exact hc
    exact bare_ne_slash c (hall c hcm)
  unfold normalize_subreddit_name
  rw [if_neg hnz, hd]
  simp only [h1, hrc, Bool.false_eq_true, if_false, hpre1, if_true, List.drop_succ_cons,
    List.drop_zero, h2, hcontains]
  rw [← hx]

theorem normalize_r_slash (X : String) (h : isBareName X = true) :
    normalize_subreddit_name ("r/" ++ X) = X := by
  obtain ⟨hne, hall⟩ := bareName_parts X h
  obtain ⟨x, xs, hx⟩ := List.exists_cons_of_ne_nil hne
  have hd : ("r/" ++ X).data = 'r' :: '/' :: (x :: xs) := by
    rw [String.data_append, hx]; rfl
  have hnz : ("r/" ++ X) ≠ "" := by
    intro he
    have h0 : ("r/" ++ X).data = [] := by rw [he]
    rw [hd] at h0
    cases h0
  have h1 : stripChars pyIsSpace ('r' :: '/' :: (x :: xs)) = 'r' :: '/' :: (x :: xs) := by
    refine stripChars_eq_self _ _ (fun c hc => ?_) (fun c hc => ?_)
    · simp only [List.head?_cons, Option.some.injEq] at hc
      rw [← hc]
      decide
    · simp only [List.getLast?_cons_cons] at hc
      exact bare_not_space c (hall c (by rw [hx]; exact getLast?_mem hc))
  have hdot : ('.' : Char) ∉ 'r' :: '/' :: (x :: xs) := by
    intro hm
    rcases List.mem_cons.mp hm with h1 | hm
    · cases h1
    rcases List.mem_cons.mp hm with h1 | hm
    · cases h1
    · exact bare_ne_dot '.' (hall '.' (by rw [hx]; exact hm)) rfl
  have hrc : containsSub "reddit.com".data ('r' :: '/' :: (x :: xs)) = false :=
    containsSub_false _ _ (findSub_none_of_not_mem _ '.' (by decide) _ hdot)
  have hpre1 : ("/r/".data).isPrefixOf ('r' :: '/' :: (x :: xs)) = false := by
    simp [List.isPrefixOf]
  have hpre2 : ("r/".data).isPrefixOf ('r' :: '/' :: (x :: xs)) = true := by
    simp [List.isPrefixOf]
  have h2 : stripChars isSlashOrSpace (x :: xs) = x :: xs := by
    refine stripChars_eq_self _ _ (fun c hc => ?_) (fun c hc => ?_)
    · exact bare_not_slashspace c (hall c (by rw [hx]; exact head?_mem hc))
    · exact bare_not_slashspace c (hall c (by rw [hx]; exact getLast?_mem hc))
  have hcontains : (x :: xs).contains '/' = false := by
    refine contains_false_of_ne _ _ (fun c hc => ?_)
    exact bare_ne_slash c (hall c (by rw [hx]; exact hc))
  unfold normalize_subreddit_name
  rw [if_neg hnz, hd]
  simp only [h1, hrc, Bool.false_eq_true, if_false, hpre1, hpre2, if_true,
    List.drop_succ_cons, List.drop_zero, h2, hcontains]
  rw [← hx]

theorem normalize_url (X : String) (h : isBareName X = true) :
    normalize_subreddit_name ("https://reddit.com/r/" ++ X) = X := by
  obtain ⟨hne, hall⟩ := bareName_parts X h
  obtain ⟨x, xs, hx⟩ := List.exists_cons_of_ne_nil hne
  have hd : ("https://reddit.com/r/" ++ X).data =
      "https://reddit.com/r/".data ++ (x :: xs) := by
    rw [String.data_append, hx]
  have hnz : ("https://reddit.com/r/" ++ X) ≠ "" := by
    intro he
    have h0 : ("https://reddit.com/r/" ++ X).data = [] := by rw [he]
    rw [hd] at h0
    cases h0
  have h1 : stripChars pyIsSpace ("https://reddit.com/r/".data ++ (x :: xs)) =
      "https://reddit.com/r/".data ++ (x :: xs) := by
    refine stripChars_eq_self _ _ (fun c hc => ?_) (fun c hc => ?_)
    · simp only [String.data] at hc
      simp only [List.cons_append, List.head?_cons, Option.some.injEq] at hc
      rw [← hc]
      decide
    · simp only [String.data] at hc
      simp only [List.cons_append, List.getLast?_cons_cons, List.nil_append] at hc
      exact bare_not_space c (hall c (by rw [hx]; exact getLast?_mem hc))
  have hrcfind : findSub "reddit.com".data ("https://reddit.com/r/".data ++ (x :: xs)) =
      some 8 := by
    simp [findSub, List.isPrefixOf, String.data]
  have hrc : containsSub "reddit.com".data ("https://reddit.com/r/".data ++ (x :: xs)) =
      true := by
    unfold containsSub
    rw [hrcfind]
    rfl
  have hfind : findSub "/r/".data ("https://reddit.com/r/".data ++ (x :: xs)) =
      some 18 := by
    simp [findSub, List.isPrefixOf, String.data]
  have hdrop : ("https://reddit.com/r/".data ++ (x :: xs)).drop (18 + 3) = x :: xs := by
    simp [String.data]
  have hx0 : isBareChar x = true := hall x (by rw [hx]; exact List.mem_cons_self _ _)
  have hpre1 : ("/r/".data).isPrefixOf (x :: xs) = false := by
    have hbx : (('/' : Char) == x) = false :=
      beq_eq_false_iff_ne.mpr (fun he => bare_ne_slash x hx0 he.symm)
    simp [List.isPrefixOf, hbx]
  have hpre2 : ("r/".data).isPrefixOf (x :: xs) = false := by
    cases hxs : xs with
    | nil => simp [List.isPrefixOf]
    | cons y ys =>
      have hy0 : isBareChar y = true := by
        refine hall y ?_
        rw [hx, hxs]
        exact List.mem_cons_of_mem _ (List.mem_cons_self _ _)
      have hby : (('/' : Char) == y) = false :=
        beq_eq_false_iff_ne.mpr (fun he => bare_ne_slash y hy0 he.symm)
      simp [List.isPrefixOf, hby]
  have h2 : stripChars isSlashOrSpace (x :: xs) = x :: xs := by
    refine stripChars_eq_self _ _ (fun c hc => ?_) (fun c hc => ?_)
    · exact bare_not_slashspace c (hall c (by rw [hx]; exact head?_mem hc))
    · exact bare_not_slashspace c (hall c (by rw [hx]; exact getLast?_mem hc))
  have hcontains : (x :: xs).contains '/' = false := by
    refine contains_false_of_ne _ _ (fun c hc => ?_)
    exact bare_ne_slash c (hall c (by rw [hx]; exact hc))
  unfold normalize_subreddit_name
  rw [if_neg hnz, hd]
  simp only [h1, hrc, if_true, hfind, hdrop, hpre1, hpre2, Bool.false_eq_true, if_false,
    h2, hcontains]
  rw [← hx]

theorem not_mem_of_contains_false {l : List Char} {a : Char} (h : l.contains a = false) :
    a ∉ l := by
  induction l with
  | nil => simp
  | cons b t ih =>
    simp only [List.contains_cons, Bool.or_eq_false_iff] at h
    intro hm
    rcases List.mem_cons.mp hm with h1 | h1
    · rw [h1] at h
      simp at h
    · exact ih h.2 h1

theorem splitChar_ne_nil (sep : Char) (l : List Char) : splitChar sep l ≠ [] := by
  induction l with
  | nil => simp [splitChar]
  | cons c t ih =>
    unfold splitChar at ih ⊢
    simp only [List.foldr_cons]
    by_cases hc : c == sep
    · simp [hc]
    · simp only [hc, Bool.false_eq_true, if_false]
      cases hacc : List.foldr _ [[]] t with
      | nil => simp
      | cons a as => simp

theorem splitChar_no_sep (sep : Char) (l : List Char) :
    ∀ piece ∈ splitChar sep l, sep ∉ piece := by
  induction l with
  | nil =>
    intro piece hp
    simp only [splitChar, List.foldr_nil] at hp
    rcases List.mem_cons.mp hp with h1 | h1
    · subst h1; simp
    · cases h1
  | cons c t ih =>
    intro piece hp
    unfold splitChar at hp ih
    simp only [List.foldr_cons] at hp
    by_cases hc : c == sep
    · rw [if_pos hc] at hp
      rcases List.mem_cons.mp hp with h1 | h1
      · subst h1; simp
      · exact ih piece h1
    · rw [if_neg hc] at hp
      cases hacc : List.foldr _ [[]] t with
      | nil => exact absurd hacc (splitChar_ne_nil sep t)
      | cons a as =>
        rw [hacc] at hp
        rcases List.mem_cons.mp hp with h1 | h1
        · subst h1
          intro hm
          rcases List.mem_cons.mp hm with h2 | h2
          · rw [h2] at hc; simp at hc
          · exact ih a (by rw [hacc]; exact List.mem_cons_self _ _) h2
        · exact ih piece (by rw [hacc]; exact List.mem_cons_of_mem _ h1)

theorem dropWhile_getLast? (p : Char → Bool) (l : List Char)
    (h : l.dropWhile p ≠ []) : (l.dropWhile p).getLast? = l.getLast? := by
  induction l with
  | nil => simp at h
  | cons a t ih =>
    by_cases hp : p a
    · rw [List.dropWhile_cons_of_pos hp] at h ⊢
      have ht : t ≠ [] := by
        intro h0
        rw [h0] at h
        simp at h
      rw [ih h]
      obtain ⟨y, ys, hy⟩ := List.exists_cons_of_ne_nil ht
      rw [hy, List.getLast?_cons_cons]
    · rw [List.dropWhile_cons_of_neg hp]

theorem dropWhile_head?_false (p : Char → Bool) (l : List Char) (c : Char)
    (h : (l.dropWhile p).head? = some c) : p c = false := by
  induction l with
  | nil => cases h
  | cons a t ih =>
    by_cases hp : p a
    · rw [List.dropWhile_cons_of_pos hp] at h
      exact ih h
    · rw [List.dropWhile_cons_of_neg hp] at h
      simp only [List.head?_cons, Option.some.injEq] at h
      rw [← h]
      exact Bool.not_eq_true _ ▸ (by simpa using hp)

theorem stripChars_head?_false (p : Char → Bool) (l : List Char) (c : Char)
    (h : (stripChars p l).head? = some c) : p c = false := by
  unfold stripChars at h
  rw [List.head?_reverse] at h
  have hne : (l.dropWhile p).reverse.dropWhile p ≠ [] := by
    intro h0
    rw [h0] at h
    cases h
  rw [dropWhile_getLast? p _ hne, List.getLast?_reverse] at h
  exact dropWhile_head?_false p _ c h

theorem splitChar_cons_ne (sep c : Char) (t : List Char) (hc : (c == sep) = false) :
    ∃ a as, splitChar sep (c :: t) = (c :: a) :: as := by
  unfold splitChar
  simp only [List.foldr_cons, hc, Bool.false_eq_true, if_false]
  cases hacc : List.foldr _ [[]] t with
  | nil => exact absurd hacc (splitChar_ne_nil sep t)
  | cons a as => exact ⟨a, as, rfl⟩

theorem parts_ne_nil (sep c : Char) (t : List Char) (hc : (c == sep) = false) :
    (splitChar sep (c :: t)).filter (fun p => !p.isEmpty) ≠ [] := by
  obtain ⟨a, as, ha⟩ := splitChar_cons_ne sep c t hc
  rw [ha]
  simp [List.filter_cons]

theorem normalize_no_slash (s : String) :
    ∀ c ∈ (normalize_subreddit_name s).data, c ≠ '/' := by
  by_cases hn : s = ""
  · subst hn
    intro c hc
    cases hc
  · unfold normalize_subreddit_name
    rw [if_neg hn]
    intro c hc
    simp only [] at hc
    set m1 := stripChars pyIsSpace s.data with hm1
    set m2 := (if containsSub "reddit.com".data m1 then
        match findSub "/r/".data m1 with
        | some idx => m1.drop (idx + 3)
        | none => m1
      else m1) with hm2
    set m3 := (if ("/r/".data).isPrefixOf m2 then m2.drop 3
      else if ("r/".data).isPrefixOf m2 then m2.drop 2
      else m2) with hm3
    set m4 := stripChars isSlashOrSpace m3 with hm4
    by_cases hcon : m4.contains '/'
    · rw [if_pos hcon] at hc
      obtain ⟨c0, t0, h0⟩ : ∃ c0 t0, m4 = c0 :: t0 := by
        cases hm : m4 with
        | nil => rw [hm] at hcon; simp at hcon
        | cons a b => exact ⟨a, b, rfl⟩
      have hc0 : (c0 == '/') = false := by
        have := stripChars_head?_false isSlashOrSpace m3 c0 (by rw [← hm4, h0]; rfl)
        simp only [isSlashOrSpace, Bool.or_eq_false_iff, beq_eq_false_iff_ne, ne_eq] at this
        refine beq_eq_false_iff_ne.mpr (fun he => ?_)
        rw [he] at this
        simp at this
      have hpne := parts_ne_nil '/' c0 t0 hc0
      rw [← h0] at hpne
      cases hlast : ((splitChar '/' m4).filter (fun p => !p.isEmpty)).getLast? with
      | none =>
        rw [h0] at hlast
        rw [List.getLast?_eq_none_iff] at hlast
        rw [h0] at hpne
        exact absurd hlast hpne
      | some piece =>
        rw [hlast] at hc
        simp only [] at hc
        have hmem : piece ∈ (splitChar '/' m4).filter (fun p => !p.isEmpty) :=
          getLast?_mem hlast
        have hsub : piece ∈ splitChar '/' m4 := List.mem_of_mem_filter hmem
        intro he
        rw [he] at hc
        exact splitChar_no_sep '/' m4 piece hsub hc
    · rw [if_neg hcon] at hc
      have : m4.contains '/' = false := by
        cases hq : m4.contains '/' with
        | false => rfl
        | true => exact absurd hq hcon
      intro he
      rw [he] at hc
      exact not_mem_of_contains_false this hc
/-- C4: for each of the four admissible input shapes `"X"`, `"/r/X"`,
`"r/X"` and `"https://reddit.com/r/X"` with `X` a bare subreddit name,
`_normalize_subreddit_name` returns exactly `"X"`. -/
theorem C4_normalize_variants (X : String) (h : isBareName X = true) :
    normalize_subreddit_name X = X ∧
    normalize_subreddit_name ("/r/" ++ X) = X ∧
    normalize_subreddit_name ("r/" ++ X) = X ∧
    normalize_subreddit_name ("https://reddit.com/r/" ++ X) = X :=
  ⟨normalize_bare X h, normalize_slash_r X h, normalize_r_slash X h, normalize_url X h⟩

theorem C4_normalize_variants_witness :
    normalize_subreddit_name "test" = "test" ∧
    normalize_subreddit_name ("/r/" ++ "test") = "test" ∧
    normalize_subreddit_name ("r/" ++ "test") = "test" ∧
    normalize_subreddit_name ("https://reddit.com/r/" ++ "test") = "test" :=
  C4_normalize_variants "test" (by decide)

/-- C5 (counterexample): normalization is not idempotent on every string:
for `"x/ y"` the first pass keeps the leading space of the last path
segment (`" y"`), and the second pass strips it (`"y"`). -/
theorem C5_not_idempotent_everywhere :
    normalize_subreddit_name (normalize_subreddit_name "x/ y") ≠
      normalize_subreddit_name "x/ y" := by decide

/-- C5 (amended): normalization is idempotent on every input whose
normalized form carries no leading or trailing whitespace — outputs never
contain a slash, so such outputs are already canonical and re-normalizing
returns them unchanged; in particular an already-canonical bare name is a
fixed point. -/
theorem C5_normalize_idempotent_amended (s : String)
    (h2 : ∀ c, (normalize_subreddit_name s).data.head? = some c → pyIsSpace c = false)
    (h3 : ∀ c, (normalize_subreddit_name s).data.getLast? = some c → pyIsSpace c = false) :
    normalize_subreddit_name (normalize_subreddit_name s) = normalize_subreddit_name s :=
  normalize_fixes _ (normalize_no_slash s) h2 h3

theorem C5_normalize_idempotent_amended_witness :
    normalize_subreddit_name (normalize_subreddit_name "/r/test") =
      normalize_subreddit_name "/r/test" :=
  C5_normalize_idempotent_amended "/r/test" (by decide) (by decide)
